import Mathlib

/-!
Shallow embedding of `src/pilco/controllers.py` from the LEOC2 repository:
the squashing transform `squash_sin`, `LinearController`, `RbfController`
(its GP prediction core `MGPR` is external to the sources and is abstracted
per the spec's narrow contract), `CombinedController`, and the pseudo-input
sharing of `create_models` / `randomize`.

Conventions: TensorFlow row vectors of shape (1, k) become
`Matrix (Fin 1) (Fin k) ℝ`; per-dimension quantities become `Fin k → ℝ`;
Python `None` defaults become `Option`; in-place attribute mutation becomes
explicit state passing (the function returns the updated object).
-/

namespace LEOC2

open Matrix

/-- Row vector of width `k`, the embedding of a TF tensor of shape (1, k). -/
abbrev Row (k : ℕ) := Matrix (Fin 1) (Fin k) ℝ

/-- Square `k × k` real matrix. -/
abbrev Sq (k : ℕ) := Matrix (Fin k) (Fin k) ℝ

/-! ### squash_sin (controllers.py lines 20-43) -/

/-- Embedding of the `max_action` default at the top of `squash_sin`:
`None` becomes all ones (squash in [-1,1]); a supplied bound is broadcast
against `tf.ones((1, k))`, which leaves it unchanged entrywise. -/
def resolveMaxAction (k : ℕ) : Option (Fin k → ℝ) → Fin k → ℝ
  | none => fun _ => 1
  | some ma => ma

/-- Output mean of `squash_sin` (line 34):
`M = max_action * tf.exp(-tf.linalg.diag_part(s) / 2) * tf.sin(m)`. -/
noncomputable def squash_sin_M {k : ℕ} (m : Row k) (s : Sq k) (maxA : Fin k → ℝ) : Row k :=
  Matrix.of fun _ i => maxA i * Real.exp (-(s i i) / 2) * Real.sin (m 0 i)

/-- The `lq` intermediate of `squash_sin` (line 36):
`lq = -(diag_part(s)[:, None] + diag_part(s)[None, :]) / 2`. -/
noncomputable def squash_sin_lq {k : ℕ} (s : Sq k) : Sq k :=
  Matrix.of fun i j => -(s i i + s j j) / 2

/-- Output covariance of `squash_sin` (lines 37-40): with `q = exp(lq)` the
entry is built from `(exp(lq + s) - q) * cos(mᵀ - m) - (exp(lq - s) - q) * cos(mᵀ + m)`
and then scaled by `max_action * max_actionᵀ / 2` (entrywise broadcasts). -/
noncomputable def squash_sin_S {k : ℕ} (m : Row k) (s : Sq k) (maxA : Fin k → ℝ) : Sq k :=
  Matrix.of fun i j =>
    maxA i * maxA j *
      ((Real.exp (squash_sin_lq s i j + s i j) - Real.exp (squash_sin_lq s i j)) *
          Real.cos (m 0 i - m 0 j) -
        (Real.exp (squash_sin_lq s i j - s i j) - Real.exp (squash_sin_lq s i j)) *
          Real.cos (m 0 i + m 0 j)) / 2

/-- Input/output covariance of `squash_sin` (lines 42-43):
`C = max_action * tf.linalg.diag(exp(-diag_part(s) / 2) * cos(m))`, reshaped
to `k × k`; the broadcast multiplies column `j` of the diagonal matrix by
`max_action j`, so the result is this diagonal matrix. -/
noncomputable def squash_sin_C {k : ℕ} (m : Row k) (s : Sq k) (maxA : Fin k → ℝ) : Sq k :=
  Matrix.diagonal fun i => maxA i * (Real.exp (-(s i i) / 2) * Real.cos (m 0 i))

/-- Embedding of `squash_sin` (controllers.py lines 20-43). -/
noncomputable def squash_sin {k : ℕ} (m : Row k) (s : Sq k) (maxAction : Option (Fin k → ℝ)) :
    Row k × Sq k × Sq k :=
  let maxA := resolveMaxAction k maxAction
  (squash_sin_M m s maxA, squash_sin_S m s maxA, squash_sin_C m s maxA)

/-! ### LinearController (controllers.py lines 46-74) -/

/-- The state of a `LinearController`: weight matrix `W` (control_dim × state_dim),
bias row `b`, and `max_action` (`None` only when a caller passes it explicitly,
as `CombinedController.__init__` can). -/
structure LinearController (d k : ℕ) where
  W : Matrix (Fin k) (Fin d) ℝ
  b : Row k
  max_action : Option (Fin k → ℝ)

/-- Embedding of `LinearController.compute_action` (lines 56-68):
`M = m @ Wᵀ + b`, `S = W @ s @ Wᵀ`, `V = Wᵀ`; when `squash` is true the pair
`(M, S)` is piped through `squash_sin` and `V` becomes `V @ C`. -/
noncomputable def LinearController.compute_action {d k : ℕ} (c : LinearController d k)
    (m : Row d) (s : Sq d) (squash : Bool) :
    Row k × Sq k × Matrix (Fin d) (Fin k) ℝ :=
  let M := m * c.Wᵀ + c.b
  let S := c.W * s * c.Wᵀ
  let V := c.Wᵀ
  if squash then
    let q := squash_sin M S c.max_action
    (q.1, q.2.1, V * q.2.2)
  else
    (M, S, V)

/-! ### RbfController.compute_action (controllers.py lines 121-134)

The GP prediction step (`calculate_factorizations` / `predict_given_factorizations`)
lives in `pilco/models.py` (`MGPR`), which is not part of the sources here; per
the spec's narrow contract (§6) it is abstracted as an opaque moment-matching
prediction map `predict : (m, s) ↦ (M, S, V)` with the input-noise term zeroed. -/

/-- Modelled from the spec: the per-output observation-noise-floor accessor of
the GP core (spec §6), equal to the fixed pseudo-observation likelihood
variance, which `FakeGPR.__init__` (controllers.py line 78) fixes at `1e-4`. -/
noncomputable def pseudoObservationNoiseFloor : ℝ := 1 / 10000

/-- Embedding of `RbfController.compute_action` (lines 121-134): obtain
`(M, S, V)` from the GP moment-matching prediction, then
`S = S - tf.linalg.diag(self.variance - 1e-6)` where `self.variance` is the
per-output likelihood-variance vector, then optionally squash. -/
noncomputable def RbfController.compute_action {d k : ℕ}
    (predict : Row d → Sq d → Row k × Sq k × Matrix (Fin d) (Fin k) ℝ)
    (variance : Fin k → ℝ) (max_action : Option (Fin k → ℝ))
    (m : Row d) (s : Sq d) (squash : Bool) :
    Row k × Sq k × Matrix (Fin d) (Fin k) ℝ :=
  let p := predict m s
  let M := p.1
  let S := p.2.1 - Matrix.diagonal fun i => variance i - 1 / 1000000
  let V := p.2.2
  if squash then
    let q := squash_sin M S max_action
    (q.1, q.2.1, V * q.2.2)
  else
    (M, S, V)

/-! ### RbfController.linearize (controllers.py lines 145-171) -/

/-- One per-output-dimension GP sub-model as `linearize` reads it: the
pseudo-input centers `m.data[0]` (an `N × D` matrix), the kernel lengthscales
`m.kernel.lengthscales`, and the kernel variance `m.kernel.variance`. -/
structure LinearizeModel (N D : ℕ) where
  X : Matrix (Fin N) (Fin D) ℝ
  lengthscales : Fin D → ℝ
  kernelVariance : ℝ

/-- The `exp_term` of one pseudo-point in `linearize` (lines 163-166):
`m.kernel.variance * exp(-0.5 * (temp.T @ np.diag(1 / var) @ temp))` where
`var` is the lengthscales array and `temp = loc - center`. Note the precision
is `1 / var`, the reciprocal of the lengthscales themselves. -/
noncomputable def linearize_exp_term {D : ℕ} (kv : ℝ) (var : Fin D → ℝ)
    (temp : Fin D → ℝ) : ℝ :=
  kv * Real.exp (-(1 / 2) * ∑ i, temp i * (1 / var i * temp i))

/-- The `differential_term` of one pseudo-point (line 167):
`exp_term * (np.diag(1 / var) @ temp)`. -/
noncomputable def linearize_diff_term {D : ℕ} (kv : ℝ) (var : Fin D → ℝ)
    (temp : Fin D → ℝ) : Fin D → ℝ :=
  fun i => linearize_exp_term kv var temp * (1 / var i * temp i)

/-- The sum over one model's pseudo-points of the `weight_term_collector`
increments (line 169). -/
noncomputable def model_weight_sum {N D : ℕ} (loc : Fin D → ℝ)
    (mdl : LinearizeModel N D) : Fin D → ℝ :=
  fun i => ∑ n : Fin N,
    linearize_diff_term mdl.kernelVariance mdl.lengthscales
      (fun j => loc j - mdl.X n j) i

/-- The sum over one model's pseudo-points of the `bias_term_collector`
increments (line 168): `exp_term - differential_term.T @ center`. -/
noncomputable def model_bias_sum {N D : ℕ} (loc : Fin D → ℝ)
    (mdl : LinearizeModel N D) : ℝ :=
  ∑ n : Fin N,
    (linearize_exp_term mdl.kernelVariance mdl.lengthscales
        (fun j => loc j - mdl.X n j) -
      ∑ i, linearize_diff_term mdl.kernelVariance mdl.lengthscales
          (fun j => loc j - mdl.X n j) i * mdl.X n i)

/-- The loop of `linearize` over `self.models` (lines 158-170): the two
collectors are initialised once before the loop and are never reset between
models, so each appended pair divides the running totals by `total_rbfs`. -/
noncomputable def linearize_loop {N D : ℕ} (totalRbfs : ℝ) (loc : Fin D → ℝ) :
    List (LinearizeModel N D) → (Fin D → ℝ) → ℝ → List ((Fin D → ℝ) × ℝ)
  | [], _, _ => []
  | mdl :: rest, wc, bc =>
    let wc2 := fun i => wc i + model_weight_sum loc mdl i
    let bc2 := bc + model_bias_sum loc mdl
    (fun i => wc2 i / totalRbfs, bc2 / totalRbfs) ::
      linearize_loop totalRbfs loc rest wc2 bc2

/-- Embedding of `RbfController.linearize` (lines 145-171); `total_rbfs` is
`self.num_datapoints`, the number of pseudo-points `N` of each sub-model
(the shared `data[0]` row count). -/
noncomputable def RbfController.linearize {N D : ℕ}
    (models : List (LinearizeModel N D)) (loc : Fin D → ℝ) :
    List ((Fin D → ℝ) × ℝ) :=
  linearize_loop (N : ℝ) loc models (fun _ => 0) 0

/-- The kernel value as claim C4 states it: the Gaussian RBF with precision
the elementwise reciprocal of the squared lengthscales,
`kernel_variance * exp(-0.5 * temp.T @ diag(1 / lengthscale²) @ temp)`.
Stated from the spec's words for comparison with `linearize_exp_term`. -/
noncomputable def claimed_kernel_value {D : ℕ} (kv : ℝ) (var : Fin D → ℝ)
    (temp : Fin D → ℝ) : ℝ :=
  kv * Real.exp (-(1 / 2) * ∑ i, temp i * (1 / var i ^ 2 * temp i))

/-! ### CombinedController (controllers.py lines 174-230) -/

/-- A sub-controller as `CombinedController.compute_action` consumes it: a
`compute_action(m, s, squash)` map returning `(M, S, V)` (spec §9: a
capability interface with Linear/Rbf variants composed by value). -/
structure SubController (d k : ℕ) where
  compute_action : Row d → Sq d → Bool →
    Row k × Sq k × Matrix (Fin d) (Fin k) ℝ

/-- The state of a `CombinedController` (lines 181-191): two sub-controllers,
trust center `a`, trust scale `S`, the last stored ratio `r` (initialised to
`1`), and `max_action` (default `None`). -/
structure CombinedController (d k : ℕ) where
  linear_controller : SubController d k
  rbf_controller : SubController d k
  a : Row d
  S : Fin d → ℝ
  r : ℝ
  max_action : Option (Fin k → ℝ)

/-- Embedding of `CombinedController.compute_ratio` (lines 193-204):
`d = (x - a) @ tf.linalg.diag(S) @ tf.transpose(x - a)` (a 1 × 1 matrix) and
`ratio = 1 / tf.pow(d + 1, 2)`. -/
noncomputable def CombinedController.compute_ratio {d k : ℕ}
    (c : CombinedController d k) (x : Row d) : ℝ :=
  1 / (((x - c.a) * Matrix.diagonal c.S * (x - c.a)ᵀ) 0 0 + 1) ^ 2

/-- Embedding of `CombinedController.compute_action` (lines 206-221). The
assignment `self.r = self.compute_ratio(m)` becomes the returned updated
controller state. `(M1 - M) @ tf.transpose(M1 - M)` is a 1 × 1 matrix whose
sole entry is broadcast-added to every entry of the k × k sum, exactly as
TensorFlow broadcasting does. -/
noncomputable def CombinedController.compute_action {d k : ℕ}
    (c : CombinedController d k) (m : Row d) (s : Sq d) (squash : Bool) :
    (Row k × Sq k × Matrix (Fin d) (Fin k) ℝ) × CombinedController d k :=
  let r := c.compute_ratio m
  let c2 := { c with r := r }
  let o1 := c.linear_controller.compute_action m s false
  let o2 := c.rbf_controller.compute_action m s false
  let M := r • o1.1 + (1 - r) • o2.1
  let S := r • o1.2.1 + (1 - r) • o2.2.1 +
    Matrix.of fun _ _ =>
      (r • (o1.1 - M) * (o1.1 - M)ᵀ) 0 0 + ((1 - r) • (o2.1 - M) * (o2.1 - M)ᵀ) 0 0
  let V := r • o1.2.2 + (1 - r) • o2.2.2
  if squash then
    let q := squash_sin M S c.max_action
    ((q.1, q.2.1, V * q.2.2), c2)
  else
    ((M, S, V), c2)

/-! ### create_models / randomize pseudo-input sharing (lines 77-89, 109-119, 136-143)

Python `Parameter` objects are mutable cells shared by reference:
`FakeGPR.__init__(data, kernel, X)` stores the *passed object* when `X` is
given and allocates a fresh `Parameter` otherwise. We model the cells as a
heap (`cells : List _`) and each model's `X` as an index into it
(`Xref`); `m.X.assign(...)` becomes an update of the referenced cell. -/

/-- A `FakeGPR` sub-model as the sharing claims see it: a reference `Xref`
into the cell heap for the pseudo-input `Parameter`, plus the per-model
target column `Y` and kernel lengthscales. -/
structure FakeGPR (N D : ℕ) where
  Xref : ℕ
  Y : Matrix (Fin N) (Fin 1) ℝ
  lengthscales : Fin D → ℝ

/-- The mutable state of an `RbfController`'s sub-models: the heap of
pseudo-input `Parameter` cells and the list of sub-models. -/
structure RbfModelsState (N D : ℕ) where
  cells : List (Matrix (Fin N) (Fin D) ℝ)
  models : List (FakeGPR N D)

/-- Embedding of `FakeGPR.__init__` (lines 77-89): with `X = None` a fresh
`Parameter` cell holding `data[0]` is allocated; otherwise the passed cell
reference is stored unchanged. The model is appended to `self.models`. -/
def FakeGPR_init {N D : ℕ} (st : RbfModelsState N D)
    (dataX : Matrix (Fin N) (Fin D) ℝ) (dataY : Matrix (Fin N) (Fin 1) ℝ)
    (Xarg : Option ℕ) (ls : Fin D → ℝ) : RbfModelsState N D :=
  match Xarg with
  | none =>
      { cells := st.cells ++ [dataX]
        models := st.models ++ [{ Xref := st.cells.length, Y := dataY, lengthscales := ls }] }
  | some ref =>
      { cells := st.cells
        models := st.models ++ [{ Xref := ref, Y := dataY, lengthscales := ls }] }

/-- The loop of `RbfController.create_models` (lines 109-119): starting from
`self.models = []`, model `i = 0` is built with `X = None` (free parameter)
and every later model is built with `X = self.models[-1].X`, the previous
model's (hence transitively the first model's) pseudo-input cell. Kernel
lengthscales start as all ones (line 112). -/
def create_models_loop {N D : ℕ} (dataX : Matrix (Fin N) (Fin D) ℝ) :
    List (Matrix (Fin N) (Fin 1) ℝ) → RbfModelsState N D → RbfModelsState N D
  | [], st => st
  | y :: rest, st =>
      let prev := (st.models.getLast?).map FakeGPR.Xref
      create_models_loop dataX rest (FakeGPR_init st dataX y prev fun _ => 1)

/-- Embedding of `RbfController.create_models` (lines 109-119); `ys` is the
list of per-output-dimension target columns `data[1][:, i:i+1]`. -/
def create_models {N D : ℕ} (dataX : Matrix (Fin N) (Fin D) ℝ)
    (ys : List (Matrix (Fin N) (Fin 1) ℝ)) : RbfModelsState N D :=
  create_models_loop dataX ys { cells := [], models := [] }

/-- The loop of `RbfController.randomize` (lines 136-143): for each model in
order, `m.X.assign(fresh)` overwrites the referenced pseudo-input cell, and
`m.Y` and `m.kernel.lengthscales` are reassigned; `i` indexes the fresh
random draws consumed by successive iterations. -/
def randomize_loop {N D : ℕ} (fX : ℕ → Matrix (Fin N) (Fin D) ℝ)
    (fY : ℕ → Matrix (Fin N) (Fin 1) ℝ) (fL : ℕ → Fin D → ℝ) (i : ℕ) :
    List (Matrix (Fin N) (Fin D) ℝ) → List (FakeGPR N D) →
      List (Matrix (Fin N) (Fin D) ℝ) × List (FakeGPR N D)
  | cells, [] => (cells, [])
  | cells, mdl :: rest =>
      let cells2 := cells.set mdl.Xref (fX i)
      let res := randomize_loop fX fY fL (i + 1) cells2 rest
      (res.1, { mdl with Y := fY i, lengthscales := fL i } :: res.2)

/-- Embedding of `RbfController.randomize` (lines 136-143) on the sub-model
state; the fresh normal draws of the Python code are inputs here. -/
def RbfController.randomize {N D : ℕ} (st : RbfModelsState N D)
    (fX : ℕ → Matrix (Fin N) (Fin D) ℝ) (fY : ℕ → Matrix (Fin N) (Fin 1) ℝ)
    (fL : ℕ → Fin D → ℝ) : RbfModelsState N D :=
  let res := randomize_loop fX fY fL 0 st.cells st.models
  { cells := res.1, models := res.2 }

/-- A sequence of `randomize` calls with arbitrary fresh draws, applied in
order. -/
def applyRandomizes {N D : ℕ} (st : RbfModelsState N D) :
    List ((ℕ → Matrix (Fin N) (Fin D) ℝ) × (ℕ → Matrix (Fin N) (Fin 1) ℝ) ×
      (ℕ → Fin D → ℝ)) → RbfModelsState N D
  | [] => st
  | draws :: rest =>
      applyRandomizes (RbfController.randomize st draws.1 draws.2.1 draws.2.2) rest

/-- The pseudo-input matrix a model index reads: the cell its `Xref` points
to (out-of-range reads return the zero matrix, which never happens for
states built by `create_models`). -/
def readX {N D : ℕ} (st : RbfModelsState N D) (i : ℕ) : Matrix (Fin N) (Fin D) ℝ :=
  match st.models.get? i with
  | some mdl => st.cells.getD mdl.Xref 0
  | none => 0

/-! ### Concrete instances used by witnesses and counterexamples -/

/-- A trivial sub-controller returning zero mean, covariance and
cross-covariance, used to instantiate `CombinedController` concretely. -/
noncomputable def zeroSub : SubController 1 1 :=
  ⟨fun _ _ _ => (0, 0, 0)⟩

/-- A concrete `CombinedController` with trust center `0`, unit trust scale
and initial stored ratio `1` (the constructor's value). -/
noncomputable def cc1 : CombinedController 1 1 :=
  { linear_controller := zeroSub, rbf_controller := zeroSub,
    a := 0, S := fun _ => 1, r := 1, max_action := none }

/-- A concrete query state at distance 1 from `cc1`'s trust center. -/
noncomputable def x1 : Row 1 :=
  Matrix.of fun _ _ => 1

/-- A concrete one-pseudo-point sub-model with its center at the origin,
unit lengthscale and unit kernel variance. -/
noncomputable def mdl1 : LinearizeModel 1 1 :=
  { X := 0, lengthscales := fun _ => 1, kernelVariance := 1 }

/-- A concrete `LinearController` with zero weights and bias. -/
noncomputable def lc1 : LinearController 1 1 :=
  { W := 0, b := 0, max_action := none }

/-! ## Theorems -/

/-- C1: for every 1×k mean `m`, every covariance `s` with non-negative
diagonal and every per-dimension bound `max_action` (defaulting to all ones
when not supplied), `squash_sin` returns an output mean with
`M_i = max_action_i * exp(-s_ii / 2) * sin(m_i)`, and consequently
`|M_i| ≤ max_action_i` elementwise. -/
theorem squash_sin_mean_formula_bounded {k : ℕ} (m : Row k) (s : Sq k)
    (oma : Option (Fin k → ℝ)) (hs : ∀ i, 0 ≤ s i i)
    (hma : ∀ i, 0 ≤ resolveMaxAction k oma i) (i : Fin k) :
    (squash_sin m s oma).1 0 i =
        resolveMaxAction k oma i * Real.exp (-(s i i) / 2) * Real.sin (m 0 i) ∧
      |(squash_sin m s oma).1 0 i| ≤ resolveMaxAction k oma i := by
  constructor
  · rfl
  · have h1 : Real.exp (-(s i i) / 2) ≤ 1 := by
      rw [Real.exp_le_one_iff]
      nlinarith [hs i]
    have h2 : |Real.sin (m 0 i)| ≤ 1 := Real.abs_sin_le_one _
    show |resolveMaxAction k oma i * Real.exp (-(s i i) / 2) * Real.sin (m 0 i)| ≤
      resolveMaxAction k oma i
    rw [abs_mul, abs_mul, abs_of_nonneg (hma i), abs_of_nonneg (Real.exp_nonneg _)]
    calc resolveMaxAction k oma i * Real.exp (-(s i i) / 2) * |Real.sin (m 0 i)| ≤
        resolveMaxAction k oma i * Real.exp (-(s i i) / 2) * 1 :=
          mul_le_mul_of_nonneg_left h2
            (mul_nonneg (hma i) (Real.exp_nonneg _))
      _ = resolveMaxAction k oma i * Real.exp (-(s i i) / 2) := mul_one _
      _ ≤ resolveMaxAction k oma i * 1 := mul_le_mul_of_nonneg_left h1 (hma i)
      _ = resolveMaxAction k oma i := mul_one _

/-- Witness for C1 at `k = 1`, `m = 0`, `s = 0`, `max_action` not supplied. -/
theorem squash_sin_mean_formula_bounded_witness :
    (∀ i : Fin 1, 0 ≤ (0 : Sq 1) i i) ∧
      (∀ i : Fin 1, 0 ≤ resolveMaxAction 1 none i) ∧
      ((squash_sin (0 : Row 1) (0 : Sq 1) none).1 0 0 =
          resolveMaxAction 1 none 0 * Real.exp (-((0 : Sq 1) 0 0) / 2) *
            Real.sin ((0 : Row 1) 0 0) ∧
        |(squash_sin (0 : Row 1) (0 : Sq 1) none).1 0 0| ≤ resolveMaxAction 1 none 0) := by
  refine ⟨fun i => le_refl _, fun i => by norm_num [resolveMaxAction], ?_⟩
  exact squash_sin_mean_formula_bounded (0 : Row 1) (0 : Sq 1) none
    (fun i => le_refl _) (fun i => by norm_num [resolveMaxAction]) 0

/-- C7: for every `(m, s)` and parameters `W`, `b`: with `squash = false`,
`LinearController.compute_action` returns `M = m Wᵀ + b`, `S = W s Wᵀ` and
`V = Wᵀ` (so for `s = 0` it returns `M = m Wᵀ + b` exactly and `S = 0`);
with `squash = true` it returns the mean and covariance of
`squash_sin (M, S, max_action)` together with `V = Wᵀ C`, where `C` is
`squash_sin`'s input/output cross-covariance. -/
theorem linear_compute_action_formula {d k : ℕ} (c : LinearController d k)
    (m : Row d) (s : Sq d) :
    c.compute_action m s false = (m * c.Wᵀ + c.b, c.W * s * c.Wᵀ, c.Wᵀ) ∧
      (c.compute_action m 0 false).1 = m * c.Wᵀ + c.b ∧
      (c.compute_action m 0 false).2.1 = 0 ∧
      c.compute_action m s true =
        ((squash_sin (m * c.Wᵀ + c.b) (c.W * s * c.Wᵀ) c.max_action).1,
          (squash_sin (m * c.Wᵀ + c.b) (c.W * s * c.Wᵀ) c.max_action).2.1,
          c.Wᵀ * (squash_sin (m * c.Wᵀ + c.b) (c.W * s * c.Wᵀ) c.max_action).2.2) := by
  refine ⟨rfl, rfl, ?_, rfl⟩
  show c.W * (0 : Sq d) * c.Wᵀ = 0
  rw [Matrix.mul_zero, Matrix.zero_mul]

/-- C5 counterexample: with the GP prediction returning zero covariance and
the noise-floor vector fixed at the pseudo-observation likelihood variance
`1e-4`, the returned covariance is not `S_pred - diag(noise_floor)`: the code
subtracts `variance - 1e-6`, not `variance`. -/
theorem rbf_noise_floor_counterexample :
    (RbfController.compute_action (d := 1) (k := 1) (fun _ _ => (0, 0, 0))
        (fun _ => pseudoObservationNoiseFloor) none 0 0 false).2.1 ≠
      (0 : Sq 1) - Matrix.diagonal fun _ => pseudoObservationNoiseFloor := by
  intro h
  have h00 := congrArg (fun A => A 0 0) h
  simp only [RbfController.compute_action, Matrix.sub_apply, Matrix.zero_apply,
    Matrix.diagonal_apply_eq, pseudoObservationNoiseFloor] at h00
  norm_num at h00

/-- C5 amended: with `squash = false`, `RbfController.compute_action` returns
the GP prediction's mean and cross-covariance unchanged and subtracts
`diag(variance - 1e-6)` — the fixed pseudo-observation noise floor reduced by
`1e-6` — from the predicted covariance. -/
theorem rbf_noise_floor_amended {d k : ℕ}
    (predict : Row d → Sq d → Row k × Sq k × Matrix (Fin d) (Fin k) ℝ)
    (variance : Fin k → ℝ) (ma : Option (Fin k → ℝ)) (m : Row d) (s : Sq d) :
    (RbfController.compute_action predict variance ma m s false).1 = (predict m s).1 ∧
      (RbfController.compute_action predict variance ma m s false).2.1 =
        (predict m s).2.1 - Matrix.diagonal (fun i => variance i - 1 / 1000000) ∧
      (RbfController.compute_action predict variance ma m s false).2.2 =
        (predict m s).2.2 :=
  ⟨rfl, rfl, rfl⟩

/-- C4: the kernel value `linearize` computes uses precision `1 / lengthscale`
(the code's `np.diag(1 / var)` with `var` the lengthscales array), not the
squared-exponential convention `1 / lengthscale²` the claim states: at
kernel variance 1, lengthscale 4 and `loc - center = 1` the code yields
`exp(-1/8)` while the claimed Gaussian RBF value is `exp(-1/32)`. -/
theorem linearize_kernel_precision_bug :
    linearize_exp_term (D := 1) 1 (fun _ => 4) (fun _ => 1) = Real.exp (-(1 / 8)) ∧
      claimed_kernel_value (D := 1) 1 (fun _ => 4) (fun _ => 1) = Real.exp (-(1 / 32)) ∧
      linearize_exp_term (D := 1) 1 (fun _ => 4) (fun _ => 1) ≠
        claimed_kernel_value (D := 1) 1 (fun _ => 4) (fun _ => 1) := by
  have e1 : linearize_exp_term (D := 1) 1 (fun _ => 4) (fun _ => 1) =
      Real.exp (-(1 / 8)) := by
    simp only [linearize_exp_term, Fin.sum_univ_one, one_mul]
    norm_num
  have e2 : claimed_kernel_value (D := 1) 1 (fun _ => 4) (fun _ => 1) =
      Real.exp (-(1 / 32)) := by
    simp only [claimed_kernel_value, Fin.sum_univ_one, one_mul]
    norm_num
  refine ⟨e1, e2, ?_⟩
  rw [e1, e2]
  intro h
  have := Real.exp_eq_exp.mp h
  norm_num at this

/-- C2: with `squash = false`, `CombinedController.compute_action` returns
`M = r M1 + (1-r) M2`, `S = r S1 + (1-r) S2 + r (M1-M)(M1-M)ᵀ + (1-r) (M2-M)(M2-M)ᵀ`
(the 1×1 deviation products broadcast-added entrywise) and
`V = r V1 + (1-r) V2`, where `r = compute_ratio m` and the component triples
are the unsquashed outputs of the linear and RBF sub-controllers on the same
`(m, s)`. -/
theorem combined_mixture_formula {d k : ℕ} (c : CombinedController d k)
    (m : Row d) (s : Sq d) :
    (c.compute_action m s false).1 =
      (let r := c.compute_ratio m
       let o1 := c.linear_controller.compute_action m s false
       let o2 := c.rbf_controller.compute_action m s false
       let M := r • o1.1 + (1 - r) • o2.1
       (M,
        r • o1.2.1 + (1 - r) • o2.2.1 +
          Matrix.of fun _ _ =>
            (r • (o1.1 - M) * (o1.1 - M)ᵀ) 0 0 +
              ((1 - r) • (o2.1 - M) * (o2.1 - M)ᵀ) 0 0,
        r • o1.2.2 + (1 - r) • o2.2.2)) := rfl

/-- C6: `compute_ratio x = 1 / (1 + d)²` with
`d = (x - a) diag(S) (x - a)ᵀ`; it equals exactly `1` at `x = a`, and under
the positivity constraint on the trust scale `S` it lies in `(0, 1]` for
every `x`. -/
theorem compute_ratio_gate {d k : ℕ} (c : CombinedController d k) (x : Row d) :
    c.compute_ratio x =
        1 / (1 + ((x - c.a) * Matrix.diagonal c.S * (x - c.a)ᵀ) 0 0) ^ 2 ∧
      c.compute_ratio c.a = 1 ∧
      ((∀ i, 0 < c.S i) → 0 < c.compute_ratio x ∧ c.compute_ratio x ≤ 1) := by
  have hd : ∀ y : Row d, ((y - c.a) * Matrix.diagonal c.S * (y - c.a)ᵀ) 0 0 =
      ∑ i, (y - c.a) 0 i * c.S i * (y - c.a) 0 i := by
    intro y
    rw [Matrix.mul_apply]
    simp [Matrix.mul_diagonal, Matrix.transpose_apply]
  refine ⟨by rw [CombinedController.compute_ratio, add_comm], ?_, ?_⟩
  · rw [CombinedController.compute_ratio, hd]
    simp
  · intro hS
    have hdn : 0 ≤ ((x - c.a) * Matrix.diagonal c.S * (x - c.a)ᵀ) 0 0 := by
      rw [hd]
      refine Finset.sum_nonneg fun i _ => ?_
      have h1 := (hS i).le
      nlinarith [sq_nonneg ((x - c.a) 0 i)]
    rw [CombinedController.compute_ratio]
    constructor
    · apply div_pos one_pos
      nlinarith
    · rw [div_le_one (by nlinarith)]
      nlinarith

/-- Witness for C6 at the concrete controller `cc1` (unit trust scale) and
query `x1`. -/
theorem compute_ratio_gate_witness :
    (∀ i : Fin 1, 0 < cc1.S i) ∧
      (0 < cc1.compute_ratio x1 ∧ cc1.compute_ratio x1 ≤ 1) := by
  have h : ∀ i : Fin 1, 0 < cc1.S i := fun i => by norm_num [cc1]
  exact ⟨h, (compute_ratio_gate cc1 x1).2.2 h⟩

/-- C9 counterexample: `compute_action` does not leave every stored attribute
unchanged: at the concrete controller `cc1` (stored ratio `1`) and state `x1`
at distance 1 from the trust center, the call stores the freshly computed
ratio `1/4` into the attribute `r`. -/
theorem combined_r_attribute_mutates :
    ((cc1.compute_action x1 0 false).2).r ≠ cc1.r := by
  intro h
  rw [show ((cc1.compute_action x1 0 false).2).r = cc1.compute_ratio x1 from rfl] at h
  simp only [CombinedController.compute_ratio, cc1, x1, sub_zero,
    Matrix.diagonal_one, Matrix.mul_one, Matrix.mul_apply,
    Matrix.transpose_apply, Matrix.of_apply, Fin.sum_univ_one] at h
  norm_num at h

/-- C9 amended: `compute_action` recomputes the locality ratio from the
current mean state and trust parameters on every call without reading the
stored `r` (the outputs are unchanged if the stored `r` is replaced by any
`r0`), and the only attribute it changes is `r`, which receives the freshly
computed ratio. -/
theorem combined_action_state_update {d k : ℕ} (c : CombinedController d k)
    (m : Row d) (s : Sq d) (sq : Bool) (r0 : ℝ) :
    (c.compute_action m s sq).2 = { c with r := c.compute_ratio m } ∧
      ({ c with r := r0 } : CombinedController d k).compute_ratio m =
        c.compute_ratio m ∧
      (({ c with r := r0 } : CombinedController d k).compute_action m s sq).1 =
        (c.compute_action m s sq).1 := by
  cases sq <;> exact ⟨rfl, rfl, rfl⟩

/-- Entries of the `squash_sin` output covariance are symmetric when the
input covariance is: `lq` is symmetric by construction, `cos` is even, and
the mean sums/differences commute. -/
theorem squash_sin_S_symm {k : ℕ} (m : Row k) (s : Sq k) (maxA : Fin k → ℝ)
    (hs : ∀ i j, s i j = s j i) (i j : Fin k) :
    squash_sin_S m s maxA i j = squash_sin_S m s maxA j i := by
  simp only [squash_sin_S, squash_sin_lq, Matrix.of_apply]
  rw [hs j i, show m 0 j - m 0 i = -(m 0 i - m 0 j) by ring, Real.cos_neg,
    add_comm (m 0 j) (m 0 i), add_comm (s j j) (s i i)]
  ring

/-- A sandwich `W s Wᵀ` is entrywise symmetric when `s` is. -/
theorem mul_mul_transpose_symm {d k : ℕ} (W : Matrix (Fin k) (Fin d) ℝ)
    (s : Sq d) (hs : ∀ i j, s i j = s j i) (i j : Fin k) :
    (W * s * Wᵀ) i j = (W * s * Wᵀ) j i := by
  have hst : sᵀ = s := by
    ext a b
    exact hs b a
  have h : (W * s * Wᵀ)ᵀ = W * s * Wᵀ := by
    rw [Matrix.transpose_mul, Matrix.transpose_mul, Matrix.transpose_transpose,
      hst, ← Matrix.mul_assoc]
  calc (W * s * Wᵀ) i j = (W * s * Wᵀ)ᵀ j i := rfl
    _ = (W * s * Wᵀ) j i := by rw [h]

/-- The mixture covariance `r S1 + (1-r) S2` plus an entrywise-broadcast
scalar is symmetric when the component covariances are. -/
theorem mixture_S_symm {k : ℕ} (r : ℝ) (S1 S2 : Sq k) (K : ℝ)
    (h1 : ∀ i j, S1 i j = S1 j i) (h2 : ∀ i j, S2 i j = S2 j i) (i j : Fin k) :
    (r • S1 + (1 - r) • S2 + (Matrix.of fun _ _ => K : Sq k)) i j =
      (r • S1 + (1 - r) • S2 + (Matrix.of fun _ _ => K : Sq k)) j i := by
  simp only [Matrix.add_apply, Matrix.smul_apply, Matrix.of_apply, smul_eq_mul]
  rw [h1 i j, h2 i j]

/-- C8: for every symmetric input covariance, the covariance returned by
`squash_sin` is symmetric; `LinearController.compute_action` returns a
symmetric covariance for symmetric `s` (squashed or not); and
`CombinedController.compute_action` returns a symmetric covariance whenever
both sub-controllers' covariances are symmetric (squashed or not). -/
theorem covariance_symmetry {k d : ℕ} (m : Row k) (s : Sq k)
    (oma : Option (Fin k → ℝ)) (hs : ∀ i j, s i j = s j i)
    (lc : LinearController d k) (md : Row d) (sd : Sq d)
    (hsd : ∀ i j, sd i j = sd j i)
    (cc : CombinedController d k) (mc : Row d) (sc : Sq d)
    (h1 : ∀ i j, (cc.linear_controller.compute_action mc sc false).2.1 i j =
      (cc.linear_controller.compute_action mc sc false).2.1 j i)
    (h2 : ∀ i j, (cc.rbf_controller.compute_action mc sc false).2.1 i j =
      (cc.rbf_controller.compute_action mc sc false).2.1 j i)
    (sq1 sq2 : Bool) :
    (∀ i j, (squash_sin m s oma).2.1 i j = (squash_sin m s oma).2.1 j i) ∧
      (∀ i j, (lc.compute_action md sd sq1).2.1 i j =
        (lc.compute_action md sd sq1).2.1 j i) ∧
      (∀ i j, (cc.compute_action mc sc sq2).1.2.1 i j =
        (cc.compute_action mc sc sq2).1.2.1 j i) := by
  refine ⟨fun i j => squash_sin_S_symm m s _ hs i j, ?_, ?_⟩
  · cases sq1 with
    | false => exact fun i j => mul_mul_transpose_symm lc.W sd hsd i j
    | true =>
        exact fun i j =>
          squash_sin_S_symm _ _ _ (mul_mul_transpose_symm lc.W sd hsd) i j
  · cases sq2 with
    | false => exact fun i j => mixture_S_symm _ _ _ _ h1 h2 i j
    | true =>
        exact fun i j =>
          squash_sin_S_symm _ _ _
            (fun a b => mixture_S_symm _ _ _ _ h1 h2 a b) i j

/-- Witness for C8 at zero matrices, the concrete linear controller `lc1`
and the concrete combined controller `cc1`, with squashing on. -/
theorem covariance_symmetry_witness :
    (∀ i j : Fin 1, (0 : Sq 1) i j = (0 : Sq 1) j i) ∧
      ((∀ i j, (squash_sin (0 : Row 1) (0 : Sq 1) none).2.1 i j =
          (squash_sin (0 : Row 1) (0 : Sq 1) none).2.1 j i) ∧
        (∀ i j, (lc1.compute_action (0 : Row 1) (0 : Sq 1) true).2.1 i j =
          (lc1.compute_action (0 : Row 1) (0 : Sq 1) true).2.1 j i) ∧
        (∀ i j, (cc1.compute_action x1 (0 : Sq 1) true).1.2.1 i j =
          (cc1.compute_action x1 (0 : Sq 1) true).1.2.1 j i)) := by
  have hz : ∀ i j : Fin 1, (0 : Sq 1) i j = (0 : Sq 1) j i := fun i j => rfl
  exact ⟨hz, covariance_symmetry (0 : Row 1) (0 : Sq 1) none hz lc1 (0 : Row 1)
    (0 : Sq 1) hz cc1 x1 (0 : Sq 1) (fun i j => rfl) (fun i j => rfl) true true⟩

/-- C3: `linearize`'s collectors are initialised before the loop over models
and never reset, so a later output dimension's pair is affected by earlier
dimensions' accumulated sums: with two identical one-pseudo-point sub-models
(center at the origin, unit lengthscale and variance) and `loc = 0`, the
second returned bias is `2`, while the average over that dimension's own
pseudo-points — which the claim says the pair is computed from — is `1`. -/
theorem linearize_collector_bug :
    ((RbfController.linearize [mdl1, mdl1] fun _ => 0).getD 1 (fun _ => 0, 0)).2 = 2 ∧
      model_bias_sum (fun _ => 0) mdl1 / ((1 : ℕ) : ℝ) = 1 ∧
      (2 : ℝ) ≠ 1 := by
  have hb : model_bias_sum (fun _ => 0) mdl1 = 1 := by
    simp [model_bias_sum, linearize_diff_term, linearize_exp_term, mdl1,
      Fin.sum_univ_one]
  refine ⟨?_, by rw [hb]; norm_num, by norm_num⟩
  simp only [RbfController.linearize, linearize_loop, List.getD_cons_succ,
    List.getD_cons_zero]
  rw [hb]
  norm_num

/-- The randomize loop rewrites cells, targets and lengthscales but leaves
every model's pseudo-input reference untouched. -/
theorem randomize_loop_xrefs_map {N D : ℕ} (fX : ℕ → Matrix (Fin N) (Fin D) ℝ)
    (fY : ℕ → Matrix (Fin N) (Fin 1) ℝ) (fL : ℕ → Fin D → ℝ) :
    ∀ (ms : List (FakeGPR N D)) (cells : List (Matrix (Fin N) (Fin D) ℝ)) (i : ℕ),
      ((randomize_loop fX fY fL i cells ms).2).map FakeGPR.Xref =
        ms.map FakeGPR.Xref := by
  intro ms
  induction ms with
  | nil => intro cells i; rfl
  | cons mdl rest ih =>
      intro cells i
      simp only [randomize_loop, List.map_cons, ih]

/-- `randomize` preserves the invariant that every sub-model references the
first model's pseudo-input cell. -/
theorem randomize_xrefs {N D : ℕ} (st : RbfModelsState N D)
    (fX : ℕ → Matrix (Fin N) (Fin D) ℝ) (fY : ℕ → Matrix (Fin N) (Fin 1) ℝ)
    (fL : ℕ → Fin D → ℝ) (h : ∀ mdl ∈ st.models, mdl.Xref = 0) :
    ∀ mdl ∈ (RbfController.randomize st fX fY fL).models, mdl.Xref = 0 := by
  intro mdl hm
  have hmap := randomize_loop_xrefs_map fX fY fL st.models st.cells 0
  have hmem : mdl.Xref ∈
      ((randomize_loop fX fY fL 0 st.cells st.models).2).map FakeGPR.Xref :=
    List.mem_map_of_mem _ hm
  rw [hmap] at hmem
  obtain ⟨mdl2, hmem2, heq⟩ := List.mem_map.mp hmem
  rw [← heq]
  exact h mdl2 hmem2

/-- Invariant of the `create_models` loop: starting from a state whose models
all reference cell 0 (and whose heap is empty while no model exists), every
model after the loop references cell 0 — the first model allocates it and
each later model reuses the previous model's reference. -/
theorem create_models_loop_xrefs {N D : ℕ} (dataX : Matrix (Fin N) (Fin D) ℝ) :
    ∀ (ys : List (Matrix (Fin N) (Fin 1) ℝ)) (st : RbfModelsState N D),
      (∀ mdl ∈ st.models, mdl.Xref = 0) → (st.models = [] → st.cells = []) →
      ∀ mdl ∈ (create_models_loop dataX ys st).models, mdl.Xref = 0 := by
  intro ys
  induction ys with
  | nil => intro st h1 _; exact h1
  | cons y rest ih =>
      intro st h1 h2
      have hstep : create_models_loop dataX (y :: rest) st =
          create_models_loop dataX rest
            (FakeGPR_init st dataX y ((st.models.getLast?).map FakeGPR.Xref)
              fun _ => 1) := rfl
      rw [hstep]
      cases hlast : st.models.getLast? with
      | none =>
          have hempty : st.models = [] := List.getLast?_eq_none_iff.mp hlast
          simp only [Option.map_none']
          refine ih _ ?_ ?_
          · intro mdl hm
            simp only [FakeGPR_init, hempty, List.nil_append] at hm
            rw [List.mem_singleton.mp hm]
            show st.cells.length = 0
            rw [h2 hempty]
            rfl
          · intro hcon
            simp only [FakeGPR_init] at hcon
            exact absurd hcon (List.append_ne_nil_of_right_ne_nil _ (by simp))
      | some last =>
          have hlmem : last ∈ st.models := List.mem_of_getLast?_eq_some hlast
          simp only [Option.map_some']
          refine ih _ ?_ ?_
          · intro mdl hm
            simp only [FakeGPR_init] at hm
            rcases List.mem_append.mp hm with hA | hB
            · exact h1 mdl hA
            · rw [List.mem_singleton.mp hB]
              exact h1 last hlmem
          · intro hcon
            simp only [FakeGPR_init] at hcon
            exact absurd hcon (List.append_ne_nil_of_right_ne_nil _ (by simp))

/-- Every sub-model built by `create_models` references the first model's
pseudo-input cell. -/
theorem create_models_xrefs {N D : ℕ} (dataX : Matrix (Fin N) (Fin D) ℝ)
    (ys : List (Matrix (Fin N) (Fin 1) ℝ)) :
    ∀ mdl ∈ (create_models dataX ys).models, mdl.Xref = 0 :=
  create_models_loop_xrefs dataX ys { cells := [], models := [] }
    (fun _ h => absurd h (List.not_mem_nil _)) (fun _ => rfl)

/-- Any sequence of `randomize` calls preserves the shared-reference
invariant. -/
theorem applyRandomizes_xrefs {N D : ℕ} :
    ∀ (draws : List ((ℕ → Matrix (Fin N) (Fin D) ℝ) ×
        (ℕ → Matrix (Fin N) (Fin 1) ℝ) × (ℕ → Fin D → ℝ)))
      (st : RbfModelsState N D), (∀ mdl ∈ st.models, mdl.Xref = 0) →
      ∀ mdl ∈ (applyRandomizes st draws).models, mdl.Xref = 0 := by
  intro draws
  induction draws with
  | nil => intro st h; exact h
  | cons dr rest ih =>
      intro st h
      exact ih _ (randomize_xrefs st dr.1 dr.2.1 dr.2.2 h)

/-- When every model references cell 0, the pseudo-input location read
through any in-range model index is the one read through index 0. -/
theorem readX_eq_of_xrefs_zero {N D : ℕ} (st : RbfModelsState N D)
    (h : ∀ mdl ∈ st.models, mdl.Xref = 0) :
    ∀ i, i < st.models.length → readX st i = readX st 0 := by
  intro i hi
  have h0 : 0 < st.models.length := Nat.lt_of_le_of_lt (Nat.zero_le i) hi
  show (match st.models.get? i with
    | some mdl => st.cells.getD mdl.Xref 0
    | none => 0) = (match st.models.get? 0 with
    | some mdl => st.cells.getD mdl.Xref 0
    | none => 0)
  rw [List.get?_eq_get hi, List.get?_eq_get h0]
  show st.cells.getD ((st.models.get ⟨i, hi⟩).Xref) 0 =
    st.cells.getD ((st.models.get ⟨0, h0⟩).Xref) 0
  rw [h _ (List.get_mem _ _ _), h _ (List.get_mem _ _ _)]

/-- C10: all per-output-dimension GP sub-models share the same pseudo-input
locations: `create_models` gives the first model a fresh parameter cell and
ties every subsequent model to the first model's cell by reference, so after
construction and after every sequence of `randomize` calls each model's
reference is the first model's cell and the pseudo-input locations read
through any model index are identical. -/
theorem shared_pseudo_inputs {N D : ℕ} (dataX : Matrix (Fin N) (Fin D) ℝ)
    (ys : List (Matrix (Fin N) (Fin 1) ℝ))
    (draws : List ((ℕ → Matrix (Fin N) (Fin D) ℝ) ×
      (ℕ → Matrix (Fin N) (Fin 1) ℝ) × (ℕ → Fin D → ℝ))) :
    (∀ mdl ∈ (applyRandomizes (create_models dataX ys) draws).models,
        mdl.Xref = 0) ∧
      ∀ i, i < (applyRandomizes (create_models dataX ys) draws).models.length →
        readX (applyRandomizes (create_models dataX ys) draws) i =
          readX (applyRandomizes (create_models dataX ys) draws) 0 := by
  have hx := applyRandomizes_xrefs draws _ (create_models_xrefs dataX ys)
  exact ⟨hx, readX_eq_of_xrefs_zero _ hx⟩

/-- Witness for C10: two output dimensions, zero data, no randomize call;
model 1 reads the same pseudo-input matrix as model 0. -/
theorem shared_pseudo_inputs_witness :
    readX (applyRandomizes
      (create_models (0 : Matrix (Fin 1) (Fin 1) ℝ) [0, 0]) []) 1 =
      readX (applyRandomizes
        (create_models (0 : Matrix (Fin 1) (Fin 1) ℝ) [0, 0]) []) 0 := by
  refine (shared_pseudo_inputs (0 : Matrix (Fin 1) (Fin 1) ℝ) [0, 0] []).2 1 ?_
  show 1 < (applyRandomizes
    (create_models (0 : Matrix (Fin 1) (Fin 1) ℝ) [0, 0]) []).models.length
  show 1 < 2
  norm_num

end LEOC2
